import Mathlib

/-!
Verification of `src/crawler/popup_chinese_crawler.py` (PopupChinese audio
crawler).  The Python source is shallowly embedded: pure string processing
becomes functions on `String` / `List Char`, the network and the filesystem
become explicit oracles passed to the embedded functions, and the per-lesson
side effects of the orchestrator become an explicit event trace.
-/

namespace Crawler

/-! ## Python string primitives

Models of the Python `str` methods the crawler uses.  `pyIsSpace` is the
exact set of characters Python's `str.strip()` removes.  `pyIsAlnum` is a
partial model of Python's Unicode-aware `str.isalnum()`: it is exact on
ASCII, on the Latin-1 letter block and on the CJK Unified Ideographs block
(U+4E00 to U+9FFF, which covers the Chinese titles this crawler meets);
other non-ASCII characters are treated as non-alphanumeric, so universally
quantified statements below should be read over strings drawn from this
modelled alphabet. -/

/-- The characters Python's `str.strip()` / `str.isspace()` treats as
whitespace. -/
def pyIsSpace (c : Char) : Bool :=
  let n := c.toNat
  (9 ≤ n && n ≤ 13) || n == 32 || (28 ≤ n && n ≤ 31) || n == 133 || n == 160 ||
  n == 0x1680 || (0x2000 ≤ n && n ≤ 0x200A) || n == 0x2028 || n == 0x2029 ||
  n == 0x202F || n == 0x205F || n == 0x3000

/-- Partial model of Python's `str.isalnum()` (exact on ASCII, Latin-1
letters and CJK Unified Ideographs; see the section comment). -/
def pyIsAlnum (c : Char) : Bool :=
  let n := c.toNat
  (48 ≤ n && n ≤ 57) || (65 ≤ n && n ≤ 90) || (97 ≤ n && n ≤ 122) ||
  (192 ≤ n && n ≤ 214) || (216 ≤ n && n ≤ 246) || (248 ≤ n && n ≤ 255) ||
  (0x4E00 ≤ n && n ≤ 0x9FFF)

/-- Python `s.strip()`: drop leading and trailing whitespace. -/
def pyStrip (l : List Char) : List Char :=
  ((l.dropWhile pyIsSpace).reverse.dropWhile pyIsSpace).reverse

/-- The character filter of `sanitize_filename`:
`c.isalnum() or c in ('_', '-')`. -/
def keepChar (c : Char) : Bool :=
  pyIsAlnum c || c = '_' || c = '-'

/-! ## `sanitize_filename` (source lines 337-349)

```python
s = title.strip().replace(' ', '_')
s = ''.join(c for c in s if c.isalnum() or c in ('_', '-'))
if not s:
    s = "untitled_lesson"
return s + '.mp3'
```
`sanitize_core` is the computation of `s` (the base name before the
extension is appended); `sanitize_filename` appends `'.mp3'`. -/

/-- The base-name computation of `sanitize_filename`: strip, replace spaces
with underscores, filter to alphanumeric / underscore / hyphen, fall back to
the placeholder when empty. -/
def sanitize_core (l : List Char) : List Char :=
  let s := (pyStrip l).map (fun c => if c = ' ' then '_' else c)
  let s2 := s.filter keepChar
  if s2 = [] then "untitled_lesson".data else s2

/-- The base name of the sanitized filename, as a string. -/
def sanitize_base (title : String) : String :=
  ⟨sanitize_core title.data⟩

/-- `sanitize_filename(title)` from the source: sanitized base plus the
unconditional `'.mp3'` extension. -/
def sanitize_filename (title : String) : String :=
  ⟨sanitize_core title.data ++ ".mp3".data⟩

/-- The spec's words, not the source: a string matching the regular
expression `^[A-Za-z0-9_-]+\.mp3$` (ASCII word characters or hyphens, then
the literal extension).  Because the suffix has fixed length, matching is
equivalent to: length > 4, last four characters are `.mp3`, and every
earlier character is in the ASCII class. -/
def specAsciiPatternHolds (s : String) : Bool :=
  let l := s.data
  let asciiWord : Char → Bool := fun c =>
    (('0' ≤ c && c ≤ '9') || ('A' ≤ c && c ≤ 'Z') || ('a' ≤ c && c ≤ 'z') ||
     c = '_' || c = '-')
  decide (4 < l.length) &&
  l.drop (l.length - 4) == ".mp3".data &&
  (l.take (l.length - 4)).all asciiWord

/-! ## `download_file` (source lines 208-255)

The network is abstracted into an oracle `fetch : Nat → FetchOutcome`
giving the outcome of the HTTP request the code makes on each (0-based)
attempt, and the destination-existence check `os.path.exists(filepath)`
into a boolean.  The embedded function records the data the claims are
about: the returned success flag, the number of attempts made (one network
request per attempt), and the list of `time.sleep` durations in seconds.
The byte stream written on success is not modelled (no claim mentions it).
-/

/-- Outcome of one streaming GET in `download_file`: success,
`requests.exceptions.HTTPError` with the response's status code (raised by
`raise_for_status`), any other `requests.exceptions.RequestException`, or
any other exception. -/
inductive FetchOutcome
  | success
  | httpError (status : Nat)
  | netError
  | otherError
deriving DecidableEq

/-- A non-404 failure, which the source's loop retries (`except` branches
at lines 243-252 that do not `return`). -/
def FetchOutcome.isRetryable : FetchOutcome → Bool
  | .success => false
  | .httpError s => s != 404
  | .netError => true
  | .otherError => true

/-- `max_retries = 5` (source line 220). -/
def max_retries : Nat := 5

/-- `retry_delay = 5` seconds (source line 221). -/
def retry_delay : Nat := 5

/-- What the embedded `download_file` reports: the boolean it returns, how
many attempts (network requests) it made, and the sleep durations it
performed, in order. -/
structure DownloadResult where
  success : Bool
  attempts : Nat
  sleeps : List Nat
deriving DecidableEq

/-- The retry loop `for attempt in range(max_retries)` of `download_file`,
with `remaining` attempts left and `attempt` the current 0-based index
(`remaining + attempt = max_retries` at every call).  Before each retry
(`attempt > 0`) it sleeps `retry_delay * attempt` seconds; a 404
`HTTPError` returns `False` at once; any other failure falls through to
the next iteration; after the loop, `False` is returned. -/
def download_loop (fetch : Nat → FetchOutcome) : Nat → Nat → DownloadResult
  | 0, _ => ⟨false, 0, []⟩
  | remaining + 1, attempt =>
    let sl : List Nat := if attempt = 0 then [] else [retry_delay * attempt]
    match fetch attempt with
    | .success => ⟨true, 1, sl⟩
    | .httpError s =>
      if s = 404 then ⟨false, 1, sl⟩
      else
        let r := download_loop fetch remaining (attempt + 1)
        ⟨r.success, r.attempts + 1, sl ++ r.sleeps⟩
    | .netError =>
      let r := download_loop fetch remaining (attempt + 1)
      ⟨r.success, r.attempts + 1, sl ++ r.sleeps⟩
    | .otherError =>
      let r := download_loop fetch remaining (attempt + 1)
      ⟨r.success, r.attempts + 1, sl ++ r.sleeps⟩

/-- `download_file(url, folder, filename)`: if the destination file already
exists, return `True` with no network request; otherwise run the retry
loop. -/
def download_file (exists_at_dest : Bool) (fetch : Nat → FetchOutcome) :
    DownloadResult :=
  if exists_at_dest then ⟨true, 0, []⟩
  else download_loop fetch max_retries 0

/-! ## Python `int()` (used by the next-page detection)

Partial model of `int(text)` on a string argument: strip whitespace, an
optional sign, then a nonempty run of ASCII digits in which single
underscores may appear between digits (Python 3.6 numeric literals);
anything else raises `ValueError`, modelled as `none`.  Non-ASCII Unicode
digits are not modelled. -/

/-- Digits possibly separated by single underscores, accumulating the
value; the first character of the digit run has already been consumed. -/
def pyDigitsGo (acc : Nat) : List Char → Option Nat
  | [] => some acc
  | '_' :: rest =>
    match rest with
    | [] => none
    | c :: r => if c.isDigit then pyDigitsGo (acc * 10 + (c.toNat - 48)) r else none
  | c :: r => if c.isDigit then pyDigitsGo (acc * 10 + (c.toNat - 48)) r else none

/-- A nonempty underscore-separated digit run, as a natural number. -/
def pyDigits : List Char → Option Nat
  | [] => none
  | c :: r => if c.isDigit then pyDigitsGo (c.toNat - 48) r else none

/-- `int(s)` for a string `s`; `none` models `ValueError`. -/
def pyInt (s : String) : Option Int :=
  match pyStrip s.data with
  | '+' :: rest => (pyDigits rest).map (fun n => (n : Int))
  | '-' :: rest => (pyDigits rest).map (fun n => -(n : Int))
  | rest => (pyDigits rest).map (fun n => (n : Int))

/-- `pat` is a prefix of `l` (character lists). -/
def charsPrefixOf : List Char → List Char → Bool
  | [], _ => true
  | _ :: _, [] => false
  | p :: ps, c :: cs => p = c && charsPrefixOf ps cs

/-- `pat` occurs as a contiguous run inside `l`. -/
def charsInfixOf (pat l : List Char) : Bool :=
  match l with
  | [] => charsPrefixOf pat []
  | _ :: cs => charsPrefixOf pat l || charsInfixOf pat cs

/-- `pat in s` for Python strings: substring containment. -/
def strContains (s pat : String) : Bool :=
  charsInfixOf pat.data s.data

/-- Python `str.title()` on one character run: an alphabetic character is
uppercased when the previous character was not alphabetic and lowercased
otherwise (ASCII model of Python's cased-character rule). -/
def pyTitleGo : Bool → List Char → List Char
  | _, [] => []
  | prevAlpha, c :: r =>
    if c.isAlpha then
      (if prevAlpha then c.toLower else c.toUpper) :: pyTitleGo true r
    else
      c :: pyTitleGo false r

/-- Python `str.title()` (ASCII model). -/
def pyTitle (l : List Char) : List Char :=
  pyTitleGo false l

/-- Python `s.strip('/')`: drop leading and trailing slashes. -/
def stripSlashes (l : List Char) : List Char :=
  ((l.dropWhile (· = '/')).reverse.dropWhile (· = '/')).reverse

/-! ## `parse_lessons_page` (source lines 44-149)

The BeautifulSoup document is abstracted into the results of the exact
queries the source makes.  A `Link` carries the attributes and text the
per-item extraction reads from an anchor tag; an `Item` carries the
queries made on one candidate lesson container; a `Soup` carries the four
container-strategy results and the pagination container.  `urljoin` and
`urlparse` (Python `urllib.parse`) are abstracted into an oracle `UrlLib`,
since every claim about them is conditional on their output. -/

/-- An anchor tag as the per-item extraction sees it. -/
structure Link where
  /-- `.get('href')`: `none` when the attribute is absent. -/
  href : Option String
  /-- `.get_text(strip=True)`. -/
  text : String
  /-- `.get('title', '')`. -/
  title_attr : String
  /-- `.get('alt', '')`. -/
  alt_attr : String
  /-- the parent tag's `.get_text(strip=True)`; `none` when the tag has no
  parent. -/
  parent_text : Option String
deriving DecidableEq

/-- One candidate lesson container, as the queries of the per-item loop
see it. -/
structure Item where
  /-- the tag's name (`item.name`). -/
  name : String
  /-- the item viewed as a link tag itself (used by strategy 3, when the
  container is an `a` tag). -/
  self_link : Link
  /-- `item.select_one('div.archive_title a')`. -/
  archive_title_link : Option Link
  /-- `item.find('a', href=re.compile(r'/lessons/'))`. -/
  lessons_link : Option Link
deriving DecidableEq

/-- An anchor inside the pagination container. -/
structure Anchor where
  /-- the tag's `.string` (its single string child), matched by
  `find('a', string=...)`; `none` when the tag has no single string
  child. -/
  astring : Option String
  /-- `.get('href')`. -/
  href : Option String
deriving DecidableEq

/-- The pagination container `div.paginator#paginator`. -/
structure Paginator where
  /-- `.get_text(strip=True)` of `select_one('a.selected')`; `none` when
  that anchor is absent. -/
  selected_text : Option String
  /-- the descendant anchors, in document order. -/
  anchors : List Anchor
deriving DecidableEq

/-- A parsed listing page, abstracted to the query results the source
reads. -/
structure Soup where
  /-- strategy 1: `soup.select('div.archive_teaser')`. -/
  archive_teasers : List Item
  /-- strategy 2: `soup.select('div.lesson_teaser')`. -/
  lesson_teasers : List Item
  /-- strategy 3: `soup.select('div[class*="teaser"]')`. -/
  teaser_divs : List Item
  /-- strategy 4: the parents of every
  `soup.find_all('a', href=re.compile(lesson-URL pattern))` match. -/
  lesson_link_parents : List Item
  /-- `soup.select_one('div.paginator#paginator')`. -/
  paginator : Option Paginator

/-- Oracle for `urllib.parse`: `urljoin`, and the `path` and `query`
components of `urlparse`. -/
structure UrlLib where
  /-- `urljoin(base, url)`. -/
  urljoin : String → String → String
  /-- `urlparse(u).path`. -/
  upath : String → String
  /-- `urlparse(u).query`. -/
  uquery : String → String

/-- A `{title, url}` Lesson Reference emitted by the listing parser. -/
structure LessonRef where
  title : String
  url : String
deriving DecidableEq

/-- The container cascade (source lines 55-70): the first of the four
strategies yielding any candidate containers wins. -/
def lesson_elements (soup : Soup) : List Item :=
  if soup.archive_teasers ≠ [] then soup.archive_teasers
  else if soup.lesson_teasers ≠ [] then soup.lesson_teasers
  else if soup.teaser_divs ≠ [] then soup.teaser_divs
  else soup.lesson_link_parents

/-- The title-candidate fallback (source lines 96-109): when the link's own
text is empty and the link has a parent, the first candidate among the
parent's text, the link's `title` attribute and its `alt` attribute that is
truthy and longer than 3 characters. -/
def firstGoodCandidate (link : Link) : Option String :=
  match link.parent_text with
  | none => none
  | some pt =>
    [pt, link.title_attr, link.alt_attr].find?
      (fun c => c ≠ "" && decide (3 < c.length))

/-- The URL-derived fallback title (source lines 111-115): strip slashes,
split on `/`; when at least two parts remain, the last part with hyphens
replaced by spaces, word-capitalized. -/
def titleFromUrl (h : String) : String :=
  let parts := (String.mk (stripSlashes h.data)).splitOn "/"
  if 2 ≤ parts.length then
    ⟨pyTitle (((parts.getLast?.getD "").data).map
      (fun c => if c = '-' then ' ' else c))⟩
  else ""

/-- The per-item extraction (source lines 74-123): locate the lesson link
by the three link strategies, then resolve the title through the three
title fallbacks, resolve the URL with `urljoin`, and emit the Lesson
Reference only when both are truthy. -/
def extract_lesson (ul : UrlLib) (current_page_url : String) (item : Item) :
    Option LessonRef :=
  let tag2 :=
    match item.archive_title_link with
    | some t => some t
    | none => item.lessons_link
  let tag3 :=
    match tag2 with
    | some t => some t
    | none =>
      match item.self_link.href with
      | some h =>
        if item.name = "a" && h ≠ "" && strContains h "/lessons/" then
          some item.self_link
        else none
      | none => none
  match tag3 with
  | none => none
  | some link =>
    match link.href with
    | none => none
    | some h =>
      if h = "" then none
      else
        let title0 := link.text
        let title1 :=
          if title0 = "" then (firstGoodCandidate link).getD "" else title0
        let title2 := if title1 = "" then titleFromUrl h else title1
        let lesson_url := ul.urljoin current_page_url h
        if title2 ≠ "" && lesson_url ≠ "" then some ⟨title2, lesson_url⟩
        else none

/-- `paginator_div.find('a', string=s)`: the first descendant anchor whose
string is `s`. -/
def findAnchor (anchors : List Anchor) (s : String) : Option Anchor :=
  anchors.find? (fun a => a.astring = some s)

/-- The next-page detection (source lines 125-147): find the pagination
container, parse the selected page number, look for an anchor whose string
is the successor number, resolve its `href`, and reject resolutions that
alias the current page (byte-identical, or same path and query).  Every
missing piece and the `ValueError` of `int()` yield `none`. -/
def find_next_page (ul : UrlLib) (soup : Soup) (current_page_url : String) :
    Option String :=
  match soup.paginator with
  | none => none
  | some pag =>
    match pag.selected_text with
    | none => none
    | some txt =>
      match pyInt txt with
      | none => none
      | some current_page_num =>
        let next_page_num := current_page_num + 1
        match findAnchor pag.anchors (toString next_page_num) with
        | none => none
        | some next_link_tag =>
          match next_link_tag.href with
          | none => none
          | some h =>
            if h = "" then none
            else
              let absolute_next_url := ul.urljoin current_page_url h
              if absolute_next_url ≠ current_page_url then
                if ul.upath current_page_url = ul.upath absolute_next_url ∧
                    ul.uquery current_page_url = ul.uquery absolute_next_url then
                  none
                else some absolute_next_url
              else none

/-- `parse_lessons_page(html_content, current_page_url)`: the emitted
Lesson References in order, and the optional next-page URL. -/
def parse_lessons_page (ul : UrlLib) (soup : Soup) (current_page_url : String) :
    List LessonRef × Option String :=
  ((lesson_elements soup).filterMap (extract_lesson ul current_page_url),
   find_next_page ul soup current_page_url)

/-! ## The per-lesson step of `main` (source lines 392-471)

The orchestrator's per-lesson work is embedded as a pure function from the
lesson reference and an environment of oracle answers (filesystem existence
checks, the detail-page fetch, and the parse results of the fetched markup)
to the ordered trace of observable actions: summary appends and downloader
invocations.  The detail page is abstracted to the two query results `main`
reads from it: the text of `div.lesson_title` (if present) and the result
of `parse_lesson_page_for_audio` (the already-resolved absolute audio URL,
if any). -/

/-- A Lesson Record as appended to `all_lessons_summary`. -/
structure Record where
  title : String
  lesson_url : String
  audio_url : String
  filename : String
deriving DecidableEq

/-- An observable action of the per-lesson step: appending a record to the
run summary, or invoking `download_file(url, DOWNLOAD_DIR, filename)`. -/
inductive Event
  | append (r : Record)
  | download (url : String) (filename : String)
deriving DecidableEq

/-- A fetched lesson detail page, abstracted to the two query results
`main` reads from it. -/
structure DetailPage where
  /-- `.get_text(strip=True)` of `find('div', class_='lesson_title')`;
  `none` when the element is absent. -/
  lesson_title_text : Option String
  /-- the result of `parse_lesson_page_for_audio` on this page. -/
  audio : Option String
deriving DecidableEq

/-- The environment of one lesson's processing: the filesystem existence
check (`file_already_exists(DOWNLOAD_DIR, ·)`), the detail-page fetch
(`get_page_content`, `none` on failure), and the boolean the subsequent
`download_file` call returns. -/
structure LessonEnv where
  fileExists : String → Bool
  detail : Option DetailPage
  downloadOk : Bool

/-- The suffix of `l` after the first occurrence of `sep`, when `sep`
occurs in `l` (Python `l.split(sep, 1)[1]` under the guard
`sep in l`). -/
def splitAfterFirst (sep : List Char) : List Char → Option (List Char)
  | [] => if charsPrefixOf sep [] then some [] else none
  | c :: cs =>
    if charsPrefixOf sep (c :: cs) then some ((c :: cs).drop sep.length)
    else splitAfterFirst sep cs

/-- The title refinement of `main` (source lines 417-430): when
`div.lesson_title` is present, split its text on the first `": "` and keep
the stripped remainder (or the whole stripped text when the separator is
absent); otherwise keep the listing-page title. -/
def refine_title (listing_title : String) (d : DetailPage) : String :=
  match d.lesson_title_text with
  | none => listing_title
  | some txt =>
    match splitAfterFirst ": ".data txt.data with
    | some rest => ⟨pyStrip rest⟩
    | none => ⟨pyStrip txt.data⟩

/-- The per-lesson step of `main`: the ordered trace of summary appends and
downloader invocations for one Lesson Reference. -/
def process_lesson (env : LessonEnv) (l : LessonRef) : List Event :=
  let potential_filename := sanitize_filename l.title
  if env.fileExists potential_filename then
    [.append ⟨l.title, l.url, "skipped - already exists", potential_filename⟩]
  else
    match env.detail with
    | none => []
    | some d =>
      let lesson_title_for_file := refine_title l.title d
      let refined_filename := sanitize_filename lesson_title_for_file
      if env.fileExists refined_filename then
        [.append ⟨lesson_title_for_file, l.url, "skipped - already exists",
                  refined_filename⟩]
      else
        match d.audio with
        | some audio_link =>
          [.append ⟨lesson_title_for_file, l.url, audio_link, refined_filename⟩,
           .download audio_link refined_filename]
        | none =>
          [.append ⟨lesson_title_for_file, l.url, "not found", refined_filename⟩]

/-- The loop `for lesson_info in lessons_on_current_page` of `main`:
concatenate the per-lesson traces onto what was accumulated so far.  The
environment is a function of the lesson, so that the filesystem state each
lesson observes may differ (earlier downloads create files). -/
def run_lessons (envOf : LessonRef → LessonEnv) (lessons : List LessonRef)
    (acc : List Event) : List Event :=
  lessons.foldl (fun t l => t ++ process_lesson (envOf l) l) acc

/-! ## Concrete inputs used by counterexamples and witnesses -/

/-- A `UrlLib` whose `urljoin` returns the link target unchanged (the
behaviour of Python `urljoin` on an absolute link target); the parse
components are only consulted on the two URLs of the scenario at hand. -/
def ulAbs : UrlLib :=
  ⟨fun _ h => h, fun _ => "/lessons",
   fun u => if u = "https://x.test/lessons?page=1" then "page=1" else "page=2"⟩

/-- Current-page URL of the pagination scenarios. -/
def curPage1 : String := "https://x.test/lessons?page=1"

/-- A listing page with no lesson containers under any of the four
strategies, but with a live pagination container: page 1 selected, and an
anchor "2" linking to page 2. -/
def soupPagOnly : Soup :=
  ⟨[], [], [], [],
   some ⟨some "1", [⟨some "2", some "https://x.test/lessons?page=2"⟩]⟩⟩

/-- A listing page with no lesson containers and no pagination
container. -/
def soupEmpty : Soup := ⟨[], [], [], [], none⟩

/-- A `UrlLib` whose `urljoin` returns the link target unchanged and whose
parse components are constant (enough for the byte-identical alias
scenario, where only `urljoin` is consulted). -/
def ulIdent : UrlLib := ⟨fun _ h => h, fun _ => "", fun _ => ""⟩

/-- Current-page URL of the alias-guard scenarios: page 3 of a listing. -/
def curPage3 : String := "https://x.test/lessons?page=3"

/-- Pagination scenario: page 3 selected, and the anchor "4" links to the
byte-identical current-page URL. -/
def soupAliasSame : Soup :=
  ⟨[], [], [], [],
   some ⟨some "3", [⟨some "4", some "https://x.test/lessons?page=3"⟩]⟩⟩

/-- A `UrlLib` matching Python `urlparse` on the two URLs of the
same-path-and-query scenario: both parse to path `/lessons` and query
`page=3`. -/
def ulSamePathQuery : UrlLib :=
  ⟨fun _ h => h, fun _ => "/lessons", fun _ => "page=3"⟩

/-- Pagination scenario: page 3 selected, and the anchor "4" links to a
URL differing from the current page only in its fragment (same path and
query). -/
def soupAliasFragment : Soup :=
  ⟨[], [], [], [],
   some ⟨some "3", [⟨some "4", some "https://x.test/lessons?page=3#top"⟩]⟩⟩

/-- Pagination scenario: the selected-page marker holds non-integer
text. -/
def soupBadSelected : Soup :=
  ⟨[], [], [], [], some ⟨some "next", [⟨some "4", some "page4"⟩]⟩⟩

/-- A lesson environment whose detail fetch fails and whose filesystem is
empty. -/
def envFetchFail : LessonEnv := ⟨fun _ => false, none, true⟩

/-- A lesson environment with empty filesystem whose fetched detail page
has neither a `div.lesson_title` element nor any audio markup. -/
def envNoAudio : LessonEnv := ⟨fun _ => false, some ⟨none, none⟩, true⟩

/-- A lesson environment with empty filesystem whose fetched detail page
has a categorised title and an extracted audio URL. -/
def envWithAudio : LessonEnv :=
  ⟨fun _ => false, some ⟨some "Elementary: Tea Time", some "http://x.test/a.mp3"⟩, true⟩

/-- The summary record the per-lesson step appends for lesson "Lesson A"
under `envNoAudio`. -/
def recNoAudio : Record :=
  ⟨"Lesson A", "u", "not found", sanitize_filename "Lesson A"⟩

/-! ## Helper lemmas -/

theorem mem_pyStrip {c : Char} {l : List Char} (h : c ∈ pyStrip l) : c ∈ l := by
  unfold pyStrip at h
  rw [List.mem_reverse] at h
  have h2 := (List.dropWhile_sublist _).subset h
  rw [List.mem_reverse] at h2
  exact (List.dropWhile_sublist _).subset h2

theorem dropWhile_noop {p : Char → Bool} {l : List Char}
    (h : ∀ c ∈ l, p c = false) : l.dropWhile p = l := by
  cases l with
  | nil => rfl
  | cons a t =>
    rw [List.dropWhile_cons, h a (List.mem_cons_self a t)]
    simp

theorem strip_noop {l : List Char} (h : ∀ c ∈ l, pyIsSpace c = false) :
    pyStrip l = l := by
  unfold pyStrip
  rw [dropWhile_noop h]
  rw [dropWhile_noop (fun c hc => h c (List.mem_reverse.mp hc))]
  exact List.reverse_reverse l

theorem map_noop {f : Char → Char} {l : List Char} (h : ∀ c ∈ l, f c = c) :
    l.map f = l := by
  induction l with
  | nil => rfl
  | cons a t ih =>
    rw [List.map_cons, h a (List.mem_cons_self a t),
        ih (fun c hc => h c (List.mem_cons_of_mem a hc))]

theorem keepChar_not_space {c : Char} (h : keepChar c = true) :
    pyIsSpace c = false ∧ c ≠ ' ' := by
  refine ⟨?_, fun hc => by subst hc; exact absurd h (by decide)⟩
  have h' : (pyIsAlnum c = true ∨ c = '_') ∨ c = '-' := by simpa [keepChar] using h
  rcases h' with (ha | rfl) | rfl
  · have ha' := ha
    simp only [pyIsAlnum, Bool.or_eq_true, Bool.and_eq_true,
      decide_eq_true_eq] at ha'
    have hgoal : ¬ pyIsSpace c = true := by
      intro hs
      simp only [pyIsSpace, Bool.or_eq_true, Bool.and_eq_true,
        decide_eq_true_eq, Nat.beq_eq_true_eq] at hs
      omega
    exact Bool.eq_false_iff.mpr hgoal
  · decide
  · decide

theorem sanitize_core_eq (l : List Char) :
    sanitize_core l =
      if ((pyStrip l).map (fun c => if c = ' ' then '_' else c)).filter keepChar
          = [] then
        "untitled_lesson".data
      else ((pyStrip l).map (fun c => if c = ' ' then '_' else c)).filter keepChar :=
  rfl

theorem sanitize_core_all_keep (l : List Char) :
    ∀ c ∈ sanitize_core l, keepChar c = true := by
  rw [sanitize_core_eq]
  intro c hc
  split at hc
  · revert hc
    have h : ∀ c ∈ "untitled_lesson".data, keepChar c = true := by decide
    exact h c
  · exact (List.mem_filter.mp hc).2

theorem sanitize_core_ne_nil (l : List Char) : sanitize_core l ≠ [] := by
  rw [sanitize_core_eq]
  split
  · decide
  · assumption

theorem sanitize_core_noop {m : List Char} (hk : ∀ c ∈ m, keepChar c = true)
    (hne : m ≠ []) : sanitize_core m = m := by
  rw [sanitize_core_eq]
  rw [strip_noop (fun c hc => (keepChar_not_space (hk c hc)).1)]
  rw [map_noop (fun c hc => by
    rw [if_neg (keepChar_not_space (hk c hc)).2])]
  rw [List.filter_eq_self.mpr (fun c hc => hk c hc)]
  exact if_neg hne

theorem sanitize_core_append_mp3 {m : List Char}
    (hk : ∀ c ∈ m, keepChar c = true) :
    sanitize_core (m ++ ".mp3".data) = m ++ "mp3".data := by
  have hall : ∀ c ∈ m ++ ".mp3".data, pyIsSpace c = false ∧ c ≠ ' ' := by
    intro c hc
    rcases List.mem_append.mp hc with hm | hs
    · exact keepChar_not_space (hk c hm)
    · revert hs
      have : ∀ c ∈ ".mp3".data, pyIsSpace c = false ∧ c ≠ ' ' := by decide
      exact this c
  rw [sanitize_core_eq]
  rw [strip_noop (fun c hc => (hall c hc).1)]
  rw [map_noop (fun c hc => by rw [if_neg (hall c hc).2])]
  rw [List.filter_append]
  rw [List.filter_eq_self.mpr (fun c hc => hk c hc)]
  have hmp3 : ".mp3".data.filter keepChar = "mp3".data := by decide
  rw [hmp3]
  have hne : m ++ "mp3".data ≠ [] := by
    intro h
    have := List.append_eq_nil.mp h
    exact absurd this.2 (by decide)
  exact if_neg hne

theorem sanitize_filename_eq (t : String) :
    sanitize_filename t = sanitize_base t ++ ".mp3" := rfl

theorem sanitize_base_ne_empty (t : String) : sanitize_base t ≠ "" := by
  intro h
  exact sanitize_core_ne_nil t.data (congrArg String.data h)

theorem sanitize_base_all_keep (t : String) :
    (sanitize_base t).data.all keepChar = true :=
  List.all_eq_true.mpr (sanitize_core_all_keep t.data)

theorem sanitize_base_dropped {t : String}
    (h : ∀ c ∈ t.data, keepChar c = false ∧ c ≠ ' ') :
    sanitize_base t = "untitled_lesson" := by
  unfold sanitize_base
  rw [sanitize_core_eq]
  have hmem : ∀ c ∈ (pyStrip t.data).map (fun c => if c = ' ' then '_' else c),
      keepChar c = false := by
    intro c hc
    rcases List.mem_map.mp hc with ⟨c0, hc0, heq⟩
    have h0 := h c0 (mem_pyStrip hc0)
    rw [if_neg h0.2] at heq
    exact heq ▸ h0.1
  rw [List.filter_eq_nil_iff.mpr (fun c hc => by
    rw [hmem c hc]; exact Bool.false_ne_true)]
  rfl

theorem download_loop_attempts_le (fetch : Nat → FetchOutcome) :
    ∀ rem att, (download_loop fetch rem att).attempts ≤ rem := by
  intro rem
  induction rem with
  | zero => intro att; simp [download_loop]
  | succ n ih =>
    intro att
    cases hf : fetch att with
    | success => simp [download_loop, hf]
    | httpError s =>
      by_cases hs : s = 404
      · simp [download_loop, hf, hs]
      · have := ih (att + 1)
        simp only [download_loop, hf, hs]
        simp
        omega
    | netError =>
      have := ih (att + 1)
      simp only [download_loop, hf]
      simp
      omega
    | otherError =>
      have := ih (att + 1)
      simp only [download_loop, hf]
      simp
      omega

theorem download_loop_step (fetch : Nat → FetchOutcome) (rem att : Nat)
    (h : (fetch att).isRetryable = true) :
    download_loop fetch (rem + 1) att =
      ⟨(download_loop fetch rem (att + 1)).success,
       (download_loop fetch rem (att + 1)).attempts + 1,
       (if att = 0 then [] else [retry_delay * att]) ++
         (download_loop fetch rem (att + 1)).sleeps⟩ := by
  cases hf : fetch att with
  | success => rw [hf] at h; simp [FetchOutcome.isRetryable] at h
  | httpError s =>
    rw [hf] at h
    have hs : ¬ s = 404 := by simpa [FetchOutcome.isRetryable] using h
    simp [download_loop, hf, hs]
  | netError => simp [download_loop, hf]
  | otherError => simp [download_loop, hf]

theorem download_loop_sleeps (fetch : Nat → FetchOutcome) :
    ∀ rem att, 1 ≤ att →
      (download_loop fetch rem att).sleeps =
        (List.range' att (download_loop fetch rem att).attempts).map
          (fun i => retry_delay * i) := by
  intro rem
  induction rem with
  | zero => intro att _; simp [download_loop]
  | succ n ih =>
    intro att hatt
    have hne : ¬ att = 0 := by omega
    cases hf : fetch att with
    | success => simp [download_loop, hf, hne, List.range'_one]
    | httpError s =>
      by_cases hs : s = 404
      · simp [download_loop, hf, hs, hne, List.range'_one]
      · simp only [download_loop, hf, hs, hne, if_false, ite_false]
        rw [ih (att + 1) (by omega)]
        simp [List.range'_succ]
    | netError =>
      simp only [download_loop, hf, hne, ite_false]
      rw [ih (att + 1) (by omega)]
      simp [List.range'_succ]
    | otherError =>
      simp only [download_loop, hf, hne, ite_false]
      rw [ih (att + 1) (by omega)]
      simp [List.range'_succ]

theorem download_file_sleeps (fetch : Nat → FetchOutcome) :
    (download_file false fetch).sleeps =
      (List.range' 1 ((download_file false fetch).attempts - 1)).map
        (fun i => retry_delay * i) := by
  have e : download_file false fetch = download_loop fetch 5 0 := rfl
  rw [e]
  by_cases hr : (fetch 0).isRetryable = true
  · rw [download_loop_step fetch 4 0 hr]
    simp only [if_pos rfl, List.nil_append, Nat.add_sub_cancel]
    exact download_loop_sleeps fetch 4 1 (by omega)
  · cases hf : fetch 0 with
    | success => simp [download_loop, hf]
    | httpError s =>
      rw [hf] at hr
      have hs : s = 404 := by simpa [FetchOutcome.isRetryable] using hr
      simp [download_loop, hf, hs]
    | netError => rw [hf] at hr; simp [FetchOutcome.isRetryable] at hr
    | otherError => rw [hf] at hr; simp [FetchOutcome.isRetryable] at hr

/-! ## Claim theorems -/

/-- C2: for every call to the downloader where the destination file does
not exist and the first download attempt yields an HTTP 404 response,
`download_file` returns failure (`False`) immediately after exactly one
attempt, with no retries and no backoff sleep. -/
theorem c2_download_404_terminal (fetch : Nat → FetchOutcome)
    (h : fetch 0 = .httpError 404) :
    download_file false fetch = ⟨false, 1, []⟩ := by
  have e : download_file false fetch = download_loop fetch 5 0 := rfl
  rw [e]
  simp [download_loop, h]

/-- Witness for C2 at a fetch stub that always returns 404. -/
theorem c2_download_404_terminal_witness :
    download_file false (fun _ => FetchOutcome.httpError 404) =
      ⟨false, 1, []⟩ :=
  c2_download_404_terminal (fun _ => FetchOutcome.httpError 404) rfl

/-- C3: for every call where the destination does not exist, the
downloader makes at most 5 attempts and sleeps `attempt_index ×
retry_delay` (with `retry_delay = 5` seconds) before each retry; if the
first two attempts fail with non-404 retryable errors and the third
succeeds it returns success after exactly three attempts (having slept 5
then 10 seconds), and if all 5 attempts fail with non-404 errors it
returns failure after 5 attempts (having slept 5, 10, 15, 20 seconds). -/
theorem c3_download_retry_budget :
    (∀ (exists_at_dest : Bool) (fetch : Nat → FetchOutcome),
      (download_file exists_at_dest fetch).attempts ≤ 5) ∧
    (∀ fetch : Nat → FetchOutcome,
      (download_file false fetch).sleeps =
        (List.range' 1 ((download_file false fetch).attempts - 1)).map
          (fun i => retry_delay * i)) ∧
    (∀ fetch : Nat → FetchOutcome,
      (fetch 0).isRetryable = true → (fetch 1).isRetryable = true →
      fetch 2 = .success →
      download_file false fetch = ⟨true, 3, [5, 10]⟩) ∧
    (∀ fetch : Nat → FetchOutcome,
      (∀ i, i < 5 → (fetch i).isRetryable = true) →
      download_file false fetch = ⟨false, 5, [5, 10, 15, 20]⟩) := by
  refine ⟨?_, ?_, ?_, ?_⟩
  · intro exists_at_dest fetch
    cases exists_at_dest with
    | false => exact download_loop_attempts_le fetch 5 0
    | true => simp [download_file]
  · exact download_file_sleeps
  · intro fetch h0 h1 h2
    have e : download_file false fetch = download_loop fetch 5 0 := rfl
    rw [e]
    rw [download_loop_step fetch 4 0 h0]
    rw [download_loop_step fetch 3 (0 + 1) (by simpa using h1)]
    have e2 : download_loop fetch 3 (0 + 1 + 1) = ⟨true, 1, [retry_delay * 2]⟩ := by
      simp [download_loop, h2]
    rw [e2]
    simp [retry_delay]
  · intro fetch h
    have e : download_file false fetch = download_loop fetch 5 0 := rfl
    rw [e]
    rw [download_loop_step fetch 4 0 (h 0 (by omega))]
    rw [download_loop_step fetch 3 (0 + 1) (by simpa using h 1 (by omega))]
    rw [download_loop_step fetch 2 (0 + 1 + 1) (by simpa using h 2 (by omega))]
    rw [download_loop_step fetch 1 (0 + 1 + 1 + 1) (by simpa using h 3 (by omega))]
    rw [download_loop_step fetch 0 (0 + 1 + 1 + 1 + 1) (by simpa using h 4 (by omega))]
    simp [download_loop, retry_delay]

/-- Witness for C3: its scenario conjuncts at concrete fetch stubs
(two transient failures then success; permanent transient failure). -/
theorem c3_download_retry_budget_witness :
    download_file false
        (fun i => if i < 2 then FetchOutcome.netError else FetchOutcome.success) =
      ⟨true, 3, [5, 10]⟩ ∧
    download_file false (fun _ => FetchOutcome.netError) =
      ⟨false, 5, [5, 10, 15, 20]⟩ :=
  ⟨c3_download_retry_budget.2.2.1
      (fun i => if i < 2 then FetchOutcome.netError else FetchOutcome.success)
      (by decide) (by decide) (by decide),
   c3_download_retry_budget.2.2.2 (fun _ => FetchOutcome.netError)
      (fun i _ => rfl)⟩

/-- C4: for every call to the downloader where the destination file
already exists, `download_file` returns success (`True`) with zero
download attempts (no network activity) and no sleeps. -/
theorem c4_download_skip_existing (fetch : Nat → FetchOutcome) :
    download_file true fetch = ⟨true, 0, []⟩ := rfl

/-- C1 as stated is false: the source filters with Python's Unicode-aware
`str.isalnum()`, so a Chinese title passes through unchanged and the
output does not match the ASCII pattern of the spec.  At the concrete
title `"中文"` the sanitizer returns `"中文.mp3"`, which fails
`^[A-Za-z0-9_-]+\.mp3$`. -/
theorem c1_counterexample :
    sanitize_filename "中文" = "中文.mp3" ∧
    specAsciiPatternHolds (sanitize_filename "中文") = false := by
  constructor
  · decide
  · decide

/-- C1 (amended): for every input title, the output is the sanitized base
name with `.mp3` appended, the base name is non-empty and consists only of
characters the filter keeps (Unicode-alphanumeric in the Python sense,
underscore, or hyphen — not the ASCII-only class the claim stated); and
for every input that is empty or contains only characters dropped by
sanitization, the base name is the placeholder `untitled_lesson`. -/
theorem c1_sanitize_output_shape (title : String) :
    sanitize_filename title = sanitize_base title ++ ".mp3" ∧
    sanitize_base title ≠ "" ∧
    (sanitize_base title).data.all keepChar = true ∧
    ((∀ c ∈ title.data, keepChar c = false ∧ c ≠ ' ') →
      sanitize_base title = "untitled_lesson") :=
  ⟨sanitize_filename_eq title, sanitize_base_ne_empty title,
   sanitize_base_all_keep title, fun h => sanitize_base_dropped h⟩

/-- Witness for C1 (amended) at the all-invalid title `"!!!"`. -/
theorem c1_sanitize_output_shape_witness :
    sanitize_base "!!!" = "untitled_lesson" :=
  (c1_sanitize_output_shape "!!!").2.2.2 (by decide)

/-- C7 as stated is false: `sanitize_filename` appends `.mp3`
unconditionally and its filter drops the dot, so a second application
yields `basemp3.mp3`, not the same string.  At the concrete title `"a"`,
`sanitize_filename "a" = "a.mp3"` but re-sanitizing gives
`"amp3.mp3"`. -/
theorem c7_counterexample :
    sanitize_filename (sanitize_filename "a") ≠ sanitize_filename "a" ∧
    sanitize_filename "a" = "a.mp3" ∧
    sanitize_filename (sanitize_filename "a") = "amp3.mp3" := by
  refine ⟨?_, ?_, ?_⟩
  · decide
  · decide
  · decide

/-- C7 (amended): sanitization is idempotent on the base name —
re-sanitizing a sanitized base name leaves it unchanged — while the full
`sanitize_filename` is not idempotent: applying it twice yields the base
name with `mp3.mp3` appended, because the extension's dot is dropped and a
fresh extension is appended. -/
theorem c7_sanitize_base_idempotent (t : String) :
    sanitize_base (sanitize_base t) = sanitize_base t ∧
    sanitize_filename (sanitize_filename t) = sanitize_base t ++ "mp3.mp3" := by
  constructor
  · show (⟨sanitize_core (sanitize_base t).data⟩ : String) = sanitize_base t
    exact congrArg String.mk
      (sanitize_core_noop (sanitize_core_all_keep t.data)
        (sanitize_core_ne_nil t.data))
  · show (⟨sanitize_core (sanitize_filename t).data ++ ".mp3".data⟩ : String) =
      sanitize_base t ++ "mp3.mp3"
    have e1 : (sanitize_filename t).data = sanitize_core t.data ++ ".mp3".data := rfl
    rw [e1, sanitize_core_append_mp3 (sanitize_core_all_keep t.data)]
    show (⟨(sanitize_core t.data ++ "mp3".data) ++ ".mp3".data⟩ : String) =
      ⟨sanitize_core t.data ++ "mp3.mp3".data⟩
    apply congrArg String.mk
    rw [List.append_assoc]
    have e2 : "mp3".data ++ ".mp3".data = "mp3.mp3".data := by decide
    rw [e2]

/-- C5: the next-page alias guards and parse-failure guards.  Whenever the
candidate next-page link's resolved URL is byte-identical to the current
page URL, or shares both its path and its query, the parser reports no
next page; a non-integer selected-page text or a missing pagination
container likewise yields no next page (the embedding is total, so no
exception escapes). -/
theorem c5_next_page_guards :
    (∀ (ul : UrlLib) (soup : Soup) (cur : String) (pag : Paginator)
        (txt : String) (n : Int) (a : Anchor) (h : String),
      soup.paginator = some pag → pag.selected_text = some txt →
      pyInt txt = some n → findAnchor pag.anchors (toString (n + 1)) = some a →
      a.href = some h → ul.urljoin cur h = cur →
      find_next_page ul soup cur = none) ∧
    (∀ (ul : UrlLib) (soup : Soup) (cur : String) (pag : Paginator)
        (txt : String) (n : Int) (a : Anchor) (h : String),
      soup.paginator = some pag → pag.selected_text = some txt →
      pyInt txt = some n → findAnchor pag.anchors (toString (n + 1)) = some a →
      a.href = some h →
      ul.upath cur = ul.upath (ul.urljoin cur h) →
      ul.uquery cur = ul.uquery (ul.urljoin cur h) →
      find_next_page ul soup cur = none) ∧
    (∀ (ul : UrlLib) (soup : Soup) (cur : String) (pag : Paginator)
        (txt : String),
      soup.paginator = some pag → pag.selected_text = some txt →
      pyInt txt = none → find_next_page ul soup cur = none) ∧
    (∀ (ul : UrlLib) (soup : Soup) (cur : String),
      soup.paginator = none → find_next_page ul soup cur = none) := by
  refine ⟨?_, ?_, ?_, ?_⟩
  · intro ul soup cur pag txt n a h hp hsel hint hfind hhref hjoin
    simp only [find_next_page, hp, hsel, hint, hfind, hhref]
    by_cases hh : h = ""
    · simp [hh]
    · simp only [hh, if_false, ite_false, hjoin]
      simp
  · intro ul soup cur pag txt n a h hp hsel hint hfind hhref hpath hquery
    simp only [find_next_page, hp, hsel, hint, hfind, hhref]
    by_cases hh : h = ""
    · simp [hh]
    · by_cases hje : ul.urljoin cur h = cur
      · simp [hh, hje]
      · simp [hh, hje, hpath.symm, hquery.symm]
  · intro ul soup cur pag txt hp hsel hint
    simp [find_next_page, hp, hsel, hint]
  · intro ul soup cur hp
    simp [find_next_page, hp]

/-- Witness for C5: the four guards at concrete pagination scenarios
(byte-identical resolution, fragment-only difference with equal path and
query, non-integer selected-page text, and a missing pagination
container). -/
theorem c5_next_page_guards_witness :
    find_next_page ulIdent soupAliasSame curPage3 = none ∧
    find_next_page ulSamePathQuery soupAliasFragment curPage3 = none ∧
    find_next_page ulIdent soupBadSelected curPage3 = none ∧
    find_next_page ulIdent soupEmpty curPage3 = none :=
  ⟨c5_next_page_guards.1 ulIdent soupAliasSame curPage3
      ⟨some "3", [⟨some "4", some "https://x.test/lessons?page=3"⟩]⟩
      "3" 3 ⟨some "4", some "https://x.test/lessons?page=3"⟩
      "https://x.test/lessons?page=3" rfl rfl (by decide) (by decide) rfl rfl,
   c5_next_page_guards.2.1 ulSamePathQuery soupAliasFragment curPage3
      ⟨some "3", [⟨some "4", some "https://x.test/lessons?page=3#top"⟩]⟩
      "3" 3 ⟨some "4", some "https://x.test/lessons?page=3#top"⟩
      "https://x.test/lessons?page=3#top" rfl rfl (by decide) (by decide)
      rfl rfl rfl,
   c5_next_page_guards.2.2.1 ulIdent soupBadSelected curPage3
      ⟨some "next", [⟨some "4", some "page4"⟩]⟩ "next" rfl rfl (by decide),
   c5_next_page_guards.2.2.2 ulIdent soupEmpty curPage3 rfl⟩

/-- C6 as stated is false: next-page detection is independent of the
lesson-container cascade, so markup with zero candidate containers under
all four strategies but a live pagination container still yields a
next-page URL.  Concretely, `soupPagOnly` has all four container lists
empty, yet the parser returns the page-2 URL. -/
theorem c6_counterexample :
    soupPagOnly.archive_teasers = [] ∧ soupPagOnly.lesson_teasers = [] ∧
    soupPagOnly.teaser_divs = [] ∧ soupPagOnly.lesson_link_parents = [] ∧
    parse_lessons_page ulAbs soupPagOnly curPage1 =
      ([], some "https://x.test/lessons?page=2") := by
  refine ⟨rfl, rfl, rfl, rfl, ?_⟩
  decide

/-- C6 (amended): when all four lesson-container extraction strategies
yield zero candidate containers the parser returns an empty lesson
sequence; and it additionally returns no next-page URL whenever the
pagination container is absent (next-page detection being independent of
the container cascade). -/
theorem c6_no_containers (ul : UrlLib) (soup : Soup) (cur : String)
    (h1 : soup.archive_teasers = []) (h2 : soup.lesson_teasers = [])
    (h3 : soup.teaser_divs = []) (h4 : soup.lesson_link_parents = []) :
    (parse_lessons_page ul soup cur).1 = [] ∧
    (soup.paginator = none → (parse_lessons_page ul soup cur).2 = none) := by
  constructor
  · simp [parse_lessons_page, lesson_elements, h1, h2, h3, h4]
  · intro hp
    simp [parse_lessons_page, find_next_page, hp]

/-- Witness for C6 (amended) at the fully empty listing page. -/
theorem c6_no_containers_witness :
    (parse_lessons_page ulIdent soupEmpty curPage3).1 = [] ∧
    (parse_lessons_page ulIdent soupEmpty curPage3).2 = none :=
  ⟨(c6_no_containers ulIdent soupEmpty curPage3 rfl rfl rfl rfl).1,
   (c6_no_containers ulIdent soupEmpty curPage3 rfl rfl rfl rfl).2 rfl⟩

/-- C8: a lesson whose detail-page fetch fails (and whose provisional
filename is not already on disk, so the fetch is actually performed) is
skipped with an empty per-lesson trace — in particular no summary entry —
and the page loop over the remaining lessons is unchanged by it. -/
theorem c8_detail_fetch_failure_skips (envOf : LessonRef → LessonEnv)
    (l : LessonRef) (rest : List LessonRef) (acc : List Event)
    (hfile : (envOf l).fileExists (sanitize_filename l.title) = false)
    (hdetail : (envOf l).detail = none) :
    process_lesson (envOf l) l = [] ∧
    run_lessons envOf (l :: rest) acc = run_lessons envOf rest acc := by
  have hpl : process_lesson (envOf l) l = [] := by
    simp [process_lesson, hfile, hdetail]
  exact ⟨hpl, by simp [run_lessons, hpl]⟩

/-- Witness for C8 at a failing-fetch environment and a singleton page. -/
theorem c8_detail_fetch_failure_skips_witness :
    process_lesson ((fun _ => envFetchFail) (LessonRef.mk "Lesson A" "u"))
        ⟨"Lesson A", "u"⟩ = [] ∧
    run_lessons (fun _ => envFetchFail) [⟨"Lesson A", "u"⟩] [] =
      run_lessons (fun _ => envFetchFail) [] [] :=
  c8_detail_fetch_failure_skips (fun _ => envFetchFail) ⟨"Lesson A", "u"⟩
    [] [] rfl rfl

/-- C9: every record the per-lesson step ever appends to the run summary
— at the listing-title skip site, the refined-title skip site, and both
normal-processing sites — has `filename = sanitize_filename title` of its
own title field; in particular every recorded filename is the non-empty
sanitized base plus `.mp3`. -/
theorem c9_summary_filename_invariant (env : LessonEnv) (l : LessonRef)
    (r : Record) (hmem : Event.append r ∈ process_lesson env l) :
    r.filename = sanitize_filename r.title ∧
    r.filename = sanitize_base r.title ++ ".mp3" ∧
    sanitize_base r.title ≠ "" := by
  have hr : r.filename = sanitize_filename r.title := by
    by_cases h1 : env.fileExists (sanitize_filename l.title) = true
    · simp [process_lesson, h1] at hmem
      subst hmem; rfl
    · cases hdet : env.detail with
      | none => simp [process_lesson, h1, hdet] at hmem
      | some d =>
        by_cases h2 :
            env.fileExists (sanitize_filename (refine_title l.title d)) = true
        · simp [process_lesson, h1, hdet, h2] at hmem
          subst hmem; rfl
        · cases haud : d.audio with
          | some u =>
            simp [process_lesson, h1, hdet, h2, haud] at hmem
            subst hmem; rfl
          | none =>
            simp [process_lesson, h1, hdet, h2, haud] at hmem
            subst hmem; rfl
  refine ⟨hr, ?_, sanitize_base_ne_empty r.title⟩
  rw [hr]
  exact sanitize_filename_eq r.title

/-- Witness for C9 at the "not found" append site. -/
theorem c9_summary_filename_invariant_witness :
    recNoAudio.filename = sanitize_filename recNoAudio.title ∧
    recNoAudio.filename = sanitize_base recNoAudio.title ++ ".mp3" ∧
    sanitize_base recNoAudio.title ≠ "" :=
  c9_summary_filename_invariant envNoAudio ⟨"Lesson A", "u"⟩ recNoAudio
    (by decide)

/-- C10: the per-lesson trace does not depend on the boolean the
downloader returns (a failed download leaves exactly the same summary as a
successful one); and whenever the downloader is invoked, the trace is
exactly one summary append followed by the download call, the appended
entry carrying the really-extracted audio URL (so the `not found` and
`skipped - already exists` sentinels arise only on the no-download
paths). -/
theorem c10_summary_before_download :
    (∀ (env : LessonEnv) (l : LessonRef) (b : Bool),
      process_lesson ⟨env.fileExists, env.detail, b⟩ l = process_lesson env l) ∧
    (∀ (env : LessonEnv) (l : LessonRef) (u f : String),
      Event.download u f ∈ process_lesson env l →
      ∃ d : DetailPage, env.detail = some d ∧ d.audio = some u ∧
        process_lesson env l =
          [Event.append ⟨refine_title l.title d, l.url, u, f⟩,
           Event.download u f] ∧
        f = sanitize_filename (refine_title l.title d)) := by
  constructor
  · intro env l b
    obtain ⟨fe, de, ok⟩ := env
    rfl
  · intro env l u f hmem
    by_cases h1 : env.fileExists (sanitize_filename l.title) = true
    · simp [process_lesson, h1] at hmem
    · cases hdet : env.detail with
      | none => simp [process_lesson, h1, hdet] at hmem
      | some d =>
        by_cases h2 :
            env.fileExists (sanitize_filename (refine_title l.title d)) = true
        · simp [process_lesson, h1, hdet, h2] at hmem
        · cases haud : d.audio with
          | none => simp [process_lesson, h1, hdet, h2, haud] at hmem
          | some u' =>
            simp [process_lesson, h1, hdet, h2, haud] at hmem
            obtain ⟨hu, hf⟩ := hmem
            subst hu; subst hf
            refine ⟨d, rfl, haud, ?_, rfl⟩
            simp [process_lesson, h1, hdet, h2, haud]

/-- Witness for C10 at an environment whose detail page yields an audio
URL. -/
theorem c10_summary_before_download_witness :
    process_lesson ⟨envWithAudio.fileExists, envWithAudio.detail, false⟩
        ⟨"Tea", "u"⟩ = process_lesson envWithAudio ⟨"Tea", "u"⟩ ∧
    (∃ d : DetailPage, envWithAudio.detail = some d ∧
      d.audio = some "http://x.test/a.mp3" ∧
      process_lesson envWithAudio ⟨"Tea", "u"⟩ =
        [Event.append ⟨refine_title "Tea" d, "u", "http://x.test/a.mp3",
            "Tea_Time.mp3"⟩,
         Event.download "http://x.test/a.mp3" "Tea_Time.mp3"] ∧
      "Tea_Time.mp3" = sanitize_filename (refine_title "Tea" d)) :=
  ⟨c10_summary_before_download.1 envWithAudio ⟨"Tea", "u"⟩ false,
   c10_summary_before_download.2 envWithAudio ⟨"Tea", "u"⟩
     "http://x.test/a.mp3" "Tea_Time.mp3" (by decide)⟩

end Crawler
